import Mathlib

/-!
# Verification of the finance-tracker recurring-schedule and bill-lifecycle engine

This file gives a shallow embedding of the schedule/bill-lifecycle core of the
finance-tracker repository and proves (or refutes) the frozen claims about it.

Dates are modelled at day granularity. A JavaScript `Date` is represented by a
civil triple `(year, month, day)` with a 0-based month, exactly as the runtime
exposes it through `getFullYear`/`getMonth`/`getDate`. The JS mutators
`setDate`, `setMonth`, `setFullYear` renormalise out-of-range components into
the timestamp (rollover, not clamping); the embedding mirrors this with
`rollDay`, which performs the (single-step) renormalisation these operations
need. The linear order on JS timestamps corresponds to the order of `dayNumber`
(days since the proleptic-Gregorian epoch of year 0).

Monetary amounts are modelled by `ℚ`.
-/

namespace FinanceTracker

/-- Leap-year test, as the proleptic Gregorian calendar used by JS `Date`. -/
def isLeap (y : Int) : Bool := (y % 4 == 0 && y % 100 != 0) || (y % 400 == 0)

/-- Number of days in month `m` (0-based: 0 = January) of year `y`.
Months `≥ 11` take the December value (they do not arise from normalised dates). -/
def monthLen (y : Int) (m : Nat) : Int :=
  if m = 1 then (if isLeap y then 29 else 28)
  else if m = 3 ∨ m = 5 ∨ m = 8 ∨ m = 10 then 30
  else 31

/-- Cumulative days before month `m` in a non-leap year (0-based month). -/
def monthBase (m : Nat) : Int :=
  if m = 0 then 0
  else if m = 1 then 31
  else if m = 2 then 59
  else if m = 3 then 90
  else if m = 4 then 120
  else if m = 5 then 151
  else if m = 6 then 181
  else if m = 7 then 212
  else if m = 8 then 243
  else if m = 9 then 273
  else if m = 10 then 304
  else 334

/-- Days in year `y` strictly before the first of month `m` (0-based). -/
def monthOffset (y : Int) (m : Nat) : Int :=
  monthBase m + (if 2 ≤ m ∧ isLeap y then 1 else 0)

/-- Days from the epoch (Jan 1 of year 0) to Jan 1 of year `y` (may be negative). -/
def daysBeforeYear (y : Int) : Int :=
  365 * y + (y - 1) / 4 - (y - 1) / 100 + (y - 1) / 400

/-- A civil date as a JS `Date` exposes it: 0-based `month`, 1-based `day`. -/
structure CivilDate where
  year : Int
  month : Nat
  day : Int
deriving DecidableEq, Repr

/-- Day number of the (possibly unnormalised) civil components `(y, m, d)`. -/
def dayNumberRaw (y : Int) (m : Nat) (d : Int) : Int :=
  daysBeforeYear y + monthOffset y m + (d - 1)

/-- The timestamp of a date, in whole days since the epoch.  Two JS dates compare
(`<`, `<=`, `=`) exactly as their `dayNumber`s do. -/
def dayNumber (dt : CivilDate) : Int :=
  dayNumberRaw dt.year dt.month dt.day

/-- Single-step renormalisation of a day-of-month overflow, as JS `Date`
performs internally when a mutator stores out-of-range components.  One step
suffices for every operation in this code base (overflows are at most 10 days). -/
def rollDay (y : Int) (m : Nat) (d : Int) : CivilDate :=
  if d ≤ monthLen y m then ⟨y, m, d⟩
  else if 11 ≤ m then ⟨y + 1, 0, d - monthLen y m⟩
  else ⟨y, m + 1, d - monthLen y m⟩

/-- JS `d.setDate(d.getDate() + k)`: move `k` days forward. -/
def jsAddDays (dt : CivilDate) (k : Int) : CivilDate :=
  rollDay dt.year dt.month (dt.day + k)

/-- JS `d.setMonth(d.getMonth() + 1)`: one calendar month forward, with
rollover (never clamping) when the day does not exist in the target month. -/
def jsAddMonth (dt : CivilDate) : CivilDate :=
  if 11 ≤ dt.month then rollDay (dt.year + 1) 0 dt.day
  else rollDay dt.year (dt.month + 1) dt.day

/-- JS `d.setFullYear(d.getFullYear() + 1)`: one calendar year forward
(Feb 29 rolls over to Mar 1 in a non-leap target year). -/
def jsAddYear (dt : CivilDate) : CivilDate :=
  rollDay (dt.year + 1) dt.month dt.day

/-- JS `nd = new Date(start); nd.setMonth(start.getMonth() + k)`. -/
def monthAddK (dt : CivilDate) (k : Nat) : CivilDate :=
  rollDay (dt.year + ((dt.month + k) / 12 : Nat)) ((dt.month + k) % 12) dt.day

/-- JS `nd = new Date(start); nd.setFullYear(start.getFullYear() + k)`. -/
def yearAddK (dt : CivilDate) (k : Nat) : CivilDate :=
  rollDay (dt.year + k) dt.month dt.day

/-! ## Frequencies and the three schedule calculators

The repository contains three functions named `calculateNextDueDate` (in
`create_bill.ts`, `mark_bill_paid.ts` and the auto-detection module) and one
`calculateNextOccurrence` (recurring-transaction processing).  Each namespace
below embeds one source file. -/

/-- `RecurringFrequency` from `types.ts`. -/
inductive Freq where
  | daily
  | weekly
  | monthly
  | yearly
deriving DecidableEq, Repr

/-- The body of one iteration of the catch-up `while` loop in
`create_bill.ts` (`setDate(+1)` / `setDate(+7)` / `setMonth(+1)` /
`setFullYear(+1)` according to the frequency). -/
def freqStep (f : Freq) (dt : CivilDate) : CivilDate :=
  match f with
  | .daily => jsAddDays dt 1
  | .weekly => jsAddDays dt 7
  | .monthly => jsAddMonth dt
  | .yearly => jsAddYear dt

namespace CreateBill

/-- The `while (nextDate <= today) nextDate += period` loop of
`calculateNextDueDate` in `create_bill.ts`, with explicit fuel.  Each
iteration moves at least one day forward, so the fuel chosen by the wrapper
below always suffices; the fuel-exhausted branch is never reached. -/
def catchUpLoop (f : Freq) (todayN : Int) : Nat → CivilDate → CivilDate
  | 0, dt => dt
  | fuel + 1, dt =>
    if dayNumber dt ≤ todayN then catchUpLoop f todayN fuel (freqStep f dt)
    else dt

/-- `calculateNextDueDate(dueDate, frequency)` from `create_bill.ts`, with the
clock reading (`new Date()`, "today") passed explicitly. -/
def calculateNextDueDate (dueDate : CivilDate) (frequency : Freq) (today : CivilDate) :
    CivilDate :=
  if dayNumber today < dayNumber dueDate then dueDate
  else catchUpLoop frequency (dayNumber today)
    ((dayNumber today + 1 - dayNumber dueDate).toNat + 1) dueDate

end CreateBill

namespace MarkBillPaid

/-- `calculateNextDueDate(currentDueDate, frequency)` from
`mark_bill_paid.ts`: exactly one period forward. -/
def calculateNextDueDate (currentDueDate : CivilDate) (frequency : Freq) : CivilDate :=
  match frequency with
  | .daily => jsAddDays currentDueDate 1
  | .weekly => jsAddDays currentDueDate 7
  | .monthly => jsAddMonth currentDueDate
  | .yearly => jsAddYear currentDueDate

end MarkBillPaid

namespace AutoDetect

/-- `calculateNextDueDate(currentDueDate, frequency)` from the auto-detection
module: identical body to the one in `mark_bill_paid.ts`.  (Its `frequency`
parameter is a plain string there; the call site always passes "monthly".) -/
def calculateNextDueDate (currentDueDate : CivilDate) (frequency : Freq) : CivilDate :=
  match frequency with
  | .daily => jsAddDays currentDueDate 1
  | .weekly => jsAddDays currentDueDate 7
  | .monthly => jsAddMonth currentDueDate
  | .yearly => jsAddYear currentDueDate

end AutoDetect

namespace Recurring

/-- The monthly `while (nextDate <= current)` search of
`calculateNextOccurrence`: each candidate is recomputed from `start` as
`setMonth(start.getMonth() + k)`.  Fuel-based; the wrapper passes enough fuel,
and even the fuel-exhausted fallback satisfies the strictly-greater bound. -/
def monthSearch (start : CivilDate) (currentN : Int) : Nat → Nat → CivilDate
  | 0, k => monthAddK start k
  | fuel + 1, k =>
    if dayNumber (monthAddK start k) ≤ currentN then monthSearch start currentN fuel (k + 1)
    else monthAddK start k

/-- The yearly `while (nextDate <= current)` search of `calculateNextOccurrence`. -/
def yearSearch (start : CivilDate) (currentN : Int) : Nat → Nat → CivilDate
  | 0, k => yearAddK start k
  | fuel + 1, k =>
    if dayNumber (yearAddK start k) ≤ currentN then yearSearch start currentN fuel (k + 1)
    else yearAddK start k

/-- `calculateNextOccurrence(startDate, frequency, currentDate)` from the
recurring-transaction processor.  `frequency` is the raw
`recurring_frequency` column, so an unrecognised value (`none`) falls through
to the `default: return null` branch. -/
def calculateNextOccurrence (startDate : CivilDate) (frequency : Option Freq)
    (currentN : Int) : Option CivilDate :=
  if currentN < dayNumber startDate then none
  else
    match frequency with
    | some .daily =>
      some ⟨startDate.year, startDate.month,
        startDate.day + (currentN - dayNumber startDate) + 1⟩
    | some .weekly =>
      some ⟨startDate.year, startDate.month,
        startDate.day + ((currentN - dayNumber startDate) / 7 + 1) * 7⟩
    | some .monthly =>
      some (monthSearch startDate currentN
        ((currentN + 1 - dayNumber (monthAddK startDate 1)).toNat + 1) 1)
    | some .yearly =>
      some (yearSearch startDate currentN
        ((currentN + 1 - dayNumber (yearAddK startDate 1)).toNat + 1) 1)
    | none => none

end Recurring

/-! ## Data model

Rows of the relational store, as read by the embedded operations.  Row sets
are lists (in the result order of the corresponding queries); timestamps are
compared through `dayNumber`, exactly as SQL compares the stored values. -/

/-- `BillStatus` from `types.ts`. -/
inductive BillStatus where
  | pending
  | paid
  | overdue
deriving DecidableEq, Repr

/-- The error kinds of `encore.dev/api`'s `APIError` used by this code. -/
inductive ApiErr where
  | invalidArgument (msg : String)
  | notFound (msg : String)
  | internal (msg : String)
deriving DecidableEq, Repr

/-- A `categories` row. -/
structure Category where
  id : Int
  name : String
  type : String
  color : String
deriving DecidableEq, Repr

/-- A `transactions` row. -/
structure Transaction where
  id : Int
  amount : ℚ
  description : String
  categoryId : Int
  date : CivilDate
  isRecurring : Bool
  recurringFrequency : Option Freq
  recurringEndDate : Option CivilDate
deriving DecidableEq, Repr

/-- A `bills` row. -/
structure Bill where
  id : Int
  name : String
  amount : ℚ
  categoryId : Int
  dueDate : CivilDate
  frequency : Freq
  status : BillStatus
  autoPayEnabled : Bool
  reminderDays : Int
  lastPaidDate : Option CivilDate
  nextDueDate : CivilDate
deriving DecidableEq, Repr

/-- A `bill_payments` row. -/
structure BillPayment where
  billId : Int
  transactionId : Option Int
  amount : ℚ
  paidDate : CivilDate
  isAutoDetected : Bool
  notes : Option String
deriving DecidableEq, Repr

/-- A `budgets` row. -/
structure Budget where
  id : Int
  categoryId : Int
  amount : ℚ
  period : String
  startDate : CivilDate
  endDate : Option CivilDate
deriving DecidableEq, Repr

/-- The database state visible to the embedded operations. -/
structure DB where
  categories : List Category
  transactions : List Transaction
  bills : List Bill
  billPayments : List BillPayment
  budgets : List Budget
deriving DecidableEq, Repr

/-- Upper bound on monetary amounts used by the validations: 999,999,999.99
(written as a fraction so that it evaluates). -/
def maxAmount : ℚ := mkRat 99999999999 100

/-- JS `a || b` for an optional numeric `a`: both absence and `0` are falsy. -/
def jsOrAmount (a : Option ℚ) (b : ℚ) : ℚ :=
  match a with
  | none => b
  | some x => if x = 0 then b else x

/-- JS truthiness of an optional numeric id (`req.transactionId || null`,
`if (req.transactionId)`): `0` behaves like absence. -/
def truthyId (a : Option Int) : Option Int :=
  match a with
  | none => none
  | some t => if t = 0 then none else some t

/-! ## `markBillPaid` (`mark_bill_paid.ts`) -/

namespace MarkBillPaid

/-- The request body (`MarkBillPaidParams & MarkBillPaidRequest`). -/
structure Request where
  id : Int
  amount : Option ℚ
  paidDate : Option CivilDate
  transactionId : Option Int
  notes : Option String
deriving DecidableEq, Repr

/-- The response (`MarkBillPaidResponse`). -/
structure Response where
  payment : BillPayment
  nextDueDate : CivilDate
deriving DecidableEq, Repr

instance {ε α : Type} [DecidableEq ε] [DecidableEq α] : DecidableEq (Except ε α) :=
  fun a b =>
    match a, b with
    | .ok x, .ok y =>
      if h : x = y then isTrue (by rw [h]) else isFalse (by simp [h])
    | .error x, .error y =>
      if h : x = y then isTrue (by rw [h]) else isFalse (by simp [h])
    | .ok x, .error y => isFalse (by simp)
    | .error x, .ok y => isFalse (by simp)

/-- The `SELECT id FROM transactions WHERE id = req.transactionId` existence
check, guarded by JS truthiness of `req.transactionId`. -/
def txnRefOk (db : DB) (req : Request) : Bool :=
  match truthyId req.transactionId with
  | none => true
  | some tid => db.transactions.any (fun t => t.id == tid)

/-- `markBillPaid` from `mark_bill_paid.ts`.  `now` is the clock reading used
for the defaulted `paidDate`.  `failUpdate` injects a store failure into the
`UPDATE bills` statement inside the BEGIN/COMMIT block; the `catch` branch
then issues ROLLBACK, which restores the pre-transaction snapshot, and
rethrows as an internal error.  The post-state is returned alongside the
result so that failure paths state what persisted. -/
def markBillPaid (failUpdate : Bool) (now : CivilDate) (db : DB) (req : Request) :
    DB × Except ApiErr Response :=
  if req.id ≤ 0 then (db, .error (.invalidArgument "valid bill id is required"))
  else
    match db.bills.find? (fun b => b.id == req.id) with
    | none => (db, .error (.notFound "bill not found"))
    | some bill =>
      let paymentAmount := jsOrAmount req.amount bill.amount
      let paidDate := req.paidDate.getD now
      if paymentAmount ≤ 0 then
        (db, .error (.invalidArgument "payment amount must be greater than 0"))
      else if maxAmount < paymentAmount then
        (db, .error (.invalidArgument "payment amount cannot exceed 999,999,999.99"))
      else if txnRefOk db req = false then
        (db, .error (.notFound "transaction not found"))
      else
        let nextDueDate := calculateNextDueDate bill.nextDueDate bill.frequency
        if failUpdate then (db, .error (.internal "failed to mark bill as paid"))
        else
          let payment : BillPayment :=
            { billId := req.id, transactionId := truthyId req.transactionId,
              amount := paymentAmount, paidDate := paidDate,
              isAutoDetected := false, notes := req.notes }
          ({ db with
              billPayments := db.billPayments ++ [payment],
              bills := db.bills.map (fun b =>
                if b.id = req.id then
                  { b with
                    status := .paid,
                    lastPaidDate := some paidDate,
                    nextDueDate := nextDueDate }
                else b) },
            .ok { payment := payment, nextDueDate := nextDueDate })

end MarkBillPaid

/-! ## Overdue sweep (`processBillReminders`) -/

namespace BillReminders

/-- The effect of the sweep's UPDATE on a single row. -/
def sweepRow (todayN : Int) (b : Bill) : Bill :=
  if b.status = .pending ∧ dayNumber b.nextDueDate < todayN then
    { b with status := .overdue }
  else b

/-- The `UPDATE bills SET status = 'overdue' WHERE status = 'pending' AND
next_due_date < today` sweep at the start of `processBillReminders`. -/
def sweepOverdue (todayN : Int) (bills : List Bill) : List Bill :=
  bills.map (sweepRow todayN)

end BillReminders

/-! ## Recurring-transaction processing (`processRecurring`) -/

namespace Recurring

/-- The `WHERE is_recurring = true AND (recurring_end_date IS NULL OR
recurring_end_date >= today)` template filter. -/
def isActiveTemplate (todayN : Int) (t : Transaction) : Bool :=
  t.isRecurring &&
    (match t.recurringEndDate with
     | none => true
     | some e => decide (todayN ≤ dayNumber e))

/-- The duplicate lookup: an existing non-recurring row with identical
description, category, amount and date. -/
def existsMaterialized (txs : List Transaction) (tmpl : Transaction)
    (nd : CivilDate) : Bool :=
  txs.any (fun e =>
    decide (e.description = tmpl.description) &&
    decide (e.categoryId = tmpl.categoryId) &&
    decide (e.amount = tmpl.amount) &&
    decide (dayNumber e.date = dayNumber nd) &&
    (e.isRecurring == false))

/-- One iteration of the `for` loop of `processRecurring`; the accumulator is
`(state, processed, created)`. -/
def recStep (todayN : Int) (acc : DB × Nat × Nat) (tmpl : Transaction) :
    DB × Nat × Nat :=
  let db := acc.1
  match calculateNextOccurrence tmpl.date tmpl.recurringFrequency todayN with
  | none => (db, acc.2.1 + 1, acc.2.2)
  | some nd =>
    if dayNumber nd ≤ todayN then
      if existsMaterialized db.transactions tmpl nd then (db, acc.2.1 + 1, acc.2.2)
      else
        ({ db with
            transactions := db.transactions ++
              [{ id := 0, amount := tmpl.amount, description := tmpl.description,
                 categoryId := tmpl.categoryId, date := nd, isRecurring := false,
                 recurringFrequency := none, recurringEndDate := none }] },
          acc.2.1 + 1, acc.2.2 + 1)
    else (db, acc.2.1 + 1, acc.2.2)

/-- `processRecurring`: returns `(state, processed, created)`. -/
def processRecurring (todayN : Int) (db : DB) : DB × Nat × Nat :=
  (db.transactions.filter (isActiveTemplate todayN)).foldl (recStep todayN) (db, 0, 0)

end Recurring

/-! ## Auto-payment detection (`processAutoDetection`) -/

namespace AutoDetect

/-- `NOT EXISTS (SELECT 1 FROM bill_payments bp WHERE bp.transaction_id = t.id)`. -/
def notLinked (ps : List BillPayment) (tid : Int) : Bool :=
  ! ps.any (fun p => p.transactionId == some tid)

/-- The link-free part of the matching query's WHERE clause: same category,
exact amount, dated within the trailing 7-day window. -/
def candBasic (todayN : Int) (bill : Bill) (t : Transaction) : Bool :=
  decide (t.categoryId = bill.categoryId) &&
  decide (t.amount = bill.amount) &&
  decide (todayN - 7 ≤ dayNumber t.date) &&
  decide (dayNumber t.date ≤ todayN)

/-- The full candidate predicate of the matching query: `candBasic` and not
already linked to any `bill_payments` row. -/
def isCandidate (todayN : Int) (ps : List BillPayment) (bill : Bill)
    (t : Transaction) : Bool :=
  candBasic todayN bill t && notLinked ps t.id

/-- One comparison step of the `ORDER BY ... LIMIT 1` selection: keep the row
whose date is strictly closer to `nd`, the incumbent on ties. -/
def better (nd : Int) (acc : Option Transaction) (t : Transaction) : Option Transaction :=
  match acc with
  | none => some t
  | some b => if |dayNumber t.date - nd| < |dayNumber b.date - nd| then some t else some b

/-- `ORDER BY ABS(EXTRACT(EPOCH FROM (t.date - next_due_date))) ASC LIMIT 1`:
a row minimising the absolute distance to `nd` (first such row in list order). -/
def pickBest (nd : Int) (l : List Transaction) : Option Transaction :=
  l.foldl (better nd) none

/-- The bill query of `processAutoDetection`: pending, auto-pay enabled, due
within the trailing 7-day window. -/
def eligible (todayN : Int) (db : DB) : List Bill :=
  db.bills.filter (fun b =>
    decide (b.status = .pending) && b.autoPayEnabled &&
    decide (todayN - 7 ≤ dayNumber b.nextDueDate) &&
    decide (dayNumber b.nextDueDate ≤ todayN))

/-- The `INSERT INTO bill_payments` row created for a detected match. -/
def payFor (bill : Bill) (t : Transaction) : BillPayment :=
  { billId := bill.id, transactionId := some t.id, amount := t.amount,
    paidDate := t.date, isAutoDetected := true, notes := none }

/-- The two statements of the per-match transaction: insert the payment row
and update the bill (status paid, lastPaidDate, nextDueDate advanced with the
hard-coded "monthly" frequency). -/
def applyMatch (db : DB) (bill : Bill) (t : Transaction) : DB :=
  { db with
    billPayments := db.billPayments ++ [payFor bill t],
    bills := db.bills.map (fun b =>
      if b.id = bill.id then
        { b with
          status := .paid,
          lastPaidDate := some t.date,
          nextDueDate := calculateNextDueDate bill.nextDueDate .monthly }
      else b) }

/-- One iteration of the bill loop of `processAutoDetection` (the per-bill
BEGIN/COMMIT always commits here; a per-item store failure would roll back
that item alone). -/
def autoStep (todayN : Int) (acc : DB × Nat) (bill : Bill) : DB × Nat :=
  match pickBest (dayNumber bill.nextDueDate)
      (acc.1.transactions.filter (isCandidate todayN acc.1.billPayments bill)) with
  | none => acc
  | some t => (applyMatch acc.1 bill t, acc.2 + 1)

/-- `processAutoDetection`: returns `(state, matched)`. -/
def processAutoDetection (todayN : Int) (db : DB) : DB × Nat :=
  (eligible todayN db).foldl (autoStep todayN) (db, 0)

/-- What the auto-matcher guarantees about one payment row it inserted during
a run over the bills `bs`: it is auto-detected, belongs to one of the bills of
`bs`, and links a transaction that was a candidate for that bill, was not
linked before the run (`startPays`), and — among the candidates still
unlinked at the end of the run (`finalPays`) — has minimal absolute distance
to the bill's due date. -/
def NewPayOK (todayN : Int) (txs : List Transaction)
    (startPays finalPays : List BillPayment) (bs : List Bill)
    (p : BillPayment) : Prop :=
  p.isAutoDetected = true ∧
  ∃ b, b ∈ bs ∧ p.billId = b.id ∧
    ∃ t, t ∈ txs ∧ p.transactionId = some t.id ∧
      candBasic todayN b t = true ∧
      notLinked startPays t.id = true ∧
      ∀ u ∈ txs, candBasic todayN b u = true →
        notLinked finalPays u.id = true →
        |dayNumber t.date - dayNumber b.nextDueDate| ≤
          |dayNumber u.date - dayNumber b.nextDueDate|

end AutoDetect

/-! ## Budget alerts (`notifications.ts`) -/

namespace Notifications

/-- The `alertType` values of `BudgetAlert`. -/
inductive AlertType where
  | warning
  | danger
  | exceeded
deriving DecidableEq, Repr

/-- A `BudgetAlert` as returned by `processBudgetAlerts`. -/
structure BudgetAlert where
  budgetId : Int
  categoryName : String
  categoryColor : String
  budgetAmount : ℚ
  spentAmount : ℚ
  percentage : ℚ
  alertType : AlertType
  period : String
deriving DecidableEq, Repr

/-- The hard-coded `NotificationSettings` of `processBudgetAlerts`. -/
def warningThreshold : ℚ := 80

/-- The hard-coded danger threshold. -/
def dangerThreshold : ℚ := 90

/-- `COALESCE(SUM(t.amount), 0)` over the budget's category within its window
(the LEFT JOIN condition also requires the joined category to be of type
`expense`). -/
def budgetSpent (db : DB) (b : Budget) (c : Category) : ℚ :=
  ((db.transactions.filter (fun t =>
      decide (t.categoryId = b.categoryId) &&
      decide (dayNumber b.startDate ≤ dayNumber t.date) &&
      (match b.endDate with
       | none => true
       | some e => decide (dayNumber t.date ≤ dayNumber e)) &&
      decide (c.type = "expense"))).map (fun t => t.amount)).sum

/-- `WHERE start_date <= CURRENT_DATE AND (end_date IS NULL OR end_date >=
CURRENT_DATE)`. -/
def inWindow (todayN : Int) (b : Budget) : Bool :=
  decide (dayNumber b.startDate ≤ todayN) &&
  (match b.endDate with
   | none => true
   | some e => decide (todayN ≤ dayNumber e))

/-- The classification chain of `processBudgetAlerts` (with the hard-coded
thresholds and `enableNotifications = true`). -/
def classify (pct : ℚ) : Option AlertType :=
  if 100 ≤ pct then some .exceeded
  else if dangerThreshold ≤ pct then some .danger
  else if warningThreshold ≤ pct then some .warning
  else none

/-- `processBudgetAlerts`: the alert list for all in-window budgets. -/
def processBudgetAlerts (todayN : Int) (db : DB) : List BudgetAlert :=
  db.budgets.filterMap (fun b =>
    match db.categories.find? (fun c => c.id == b.categoryId) with
    | none => none
    | some c =>
      if inWindow todayN b then
        let spent := budgetSpent db b c
        let pct := spent / b.amount * 100
        (classify pct).map (fun a =>
          { budgetId := b.id, categoryName := c.name, categoryColor := c.color,
            budgetAmount := b.amount, spentAmount := spent, percentage := pct,
            alertType := a, period := b.period })
      else none)

end Notifications

/-! ## Concrete states used by the claim witnesses and scenarios -/

/-- A concrete pending bill, due 2024-01-01, for the C7 witness. -/
def billW : Bill :=
  { id := 1, name := "rent", amount := 100, categoryId := 1,
    dueDate := ⟨2024, 0, 1⟩, frequency := .monthly, status := .pending,
    autoPayEnabled := false, reminderDays := 3, lastPaidDate := none,
    nextDueDate := ⟨2024, 0, 1⟩ }

/-- The concrete template set of the C3 scenario: one weekly recurring
template dated 2024-01-01, no other rows. -/
def dbScenarioC3 : DB :=
  { categories := [], bills := [], billPayments := [], budgets := [],
    transactions :=
      [{ id := 1, amount := 50, description := "gym", categoryId := 2,
         date := ⟨2024, 0, 1⟩, isRecurring := true,
         recurringFrequency := some .weekly, recurringEndDate := none }] }

/-- A concrete monthly bill for the C2 witness: original due date 2024-01-15,
current nextDueDate 2024-04-15. -/
def billC2 : Bill :=
  { id := 7, name := "electric", amount := 60, categoryId := 3,
    dueDate := ⟨2024, 0, 15⟩, frequency := .monthly, status := .pending,
    autoPayEnabled := false, reminderDays := 3, lastPaidDate := none,
    nextDueDate := ⟨2024, 3, 15⟩ }

/-- One-bill database for the C2 witness. -/
def dbC2 : DB :=
  { categories := [], transactions := [], bills := [billC2],
    billPayments := [], budgets := [] }

/-- The C2 witness request: pay bill 7 on 2024-04-18 with the default amount. -/
def reqC2 : MarkBillPaid.Request :=
  { id := 7, amount := none, paidDate := some ⟨2024, 3, 18⟩,
    transactionId := none, notes := none }

/-- The response produced for `reqC2`. -/
def respC2 : MarkBillPaid.Response :=
  { payment := { billId := 7, transactionId := none, amount := 60,
                 paidDate := ⟨2024, 3, 18⟩, isAutoDetected := false,
                 notes := none },
    nextDueDate := ⟨2024, 4, 15⟩ }

/-- A bill with configured amount 50 for the C9 counterexample. -/
def billC9 : Bill :=
  { id := 1, name := "internet", amount := 50, categoryId := 1,
    dueDate := ⟨2024, 0, 15⟩, frequency := .monthly, status := .pending,
    autoPayEnabled := false, reminderDays := 3, lastPaidDate := none,
    nextDueDate := ⟨2024, 3, 15⟩ }

/-- One-bill database for the C9 counterexample. -/
def dbC9 : DB :=
  { categories := [], transactions := [], bills := [billC9],
    billPayments := [], budgets := [] }

/-- A request that supplies the payment amount `0`. -/
def reqC9 : MarkBillPaid.Request :=
  { id := 1, amount := some 0, paidDate := some ⟨2024, 3, 18⟩,
    transactionId := none, notes := none }

/-- An expense category for the C5 scenarios. -/
def catC5 : Category := { id := 1, name := "food", type := "expense", color := "red" }

/-- A budget of 1000 over an open-ended window from 2024-01-01. -/
def budgetC5 : Budget :=
  { id := 1, categoryId := 1, amount := 1000, period := "monthly",
    startDate := ⟨2024, 0, 1⟩, endDate := none }

/-- A database with the C5 budget and a single in-window expense of `spent`. -/
def dbC5 (spent : ℚ) : DB :=
  { categories := [catC5],
    transactions :=
      [{ id := 1, amount := spent, description := "groceries", categoryId := 1,
         date := ⟨2024, 0, 10⟩, isRecurring := false, recurringFrequency := none,
         recurringEndDate := none }],
    bills := [], billPayments := [], budgets := [budgetC5] }

/-- The single alert produced for the 80%-utilization C5 run. -/
def alertC5 : Notifications.BudgetAlert :=
  { budgetId := 1, categoryName := "food", categoryColor := "red",
    budgetAmount := 1000, spentAmount := 800, percentage := 80,
    alertType := .warning, period := "monthly" }

/-- An auto-pay-enabled pending bill due 2024-04-10 for the C6 witness. -/
def billC6 : Bill :=
  { id := 9, name := "gym", amount := 75, categoryId := 4,
    dueDate := ⟨2024, 0, 10⟩, frequency := .monthly, status := .pending,
    autoPayEnabled := true, reminderDays := 3, lastPaidDate := none,
    nextDueDate := ⟨2024, 3, 10⟩ }

/-- Candidate transaction dated 2024-04-08. -/
def txC6a : Transaction :=
  { id := 1, amount := 75, description := "gym pos", categoryId := 4,
    date := ⟨2024, 3, 8⟩, isRecurring := false, recurringFrequency := none,
    recurringEndDate := none }

/-- Candidate transaction dated 2024-04-10 (exactly on the due date). -/
def txC6b : Transaction :=
  { id := 2, amount := 75, description := "gym pos", categoryId := 4,
    date := ⟨2024, 3, 10⟩, isRecurring := false, recurringFrequency := none,
    recurringEndDate := none }

/-- State for the C6 witness: one eligible bill, two candidate transactions. -/
def dbC6 : DB :=
  { categories := [], transactions := [txC6a, txC6b], bills := [billC6],
    billPayments := [], budgets := [] }

/-! ## Calendar lemmas -/

lemma daysBeforeYear_succ (y : Int) :
    daysBeforeYear (y + 1) = daysBeforeYear y + (if isLeap y then 366 else 365) := by
  simp only [daysBeforeYear, isLeap, Bool.or_eq_true, Bool.and_eq_true, beq_iff_eq,
    bne_iff_ne, ne_eq]
  split <;> omega

lemma monthLen_ge (y : Int) (m : Nat) : 28 ≤ monthLen y m := by
  unfold monthLen; split_ifs <;> omega

lemma monthLen_le (y : Int) (m : Nat) : monthLen y m ≤ 31 := by
  unfold monthLen; split_ifs <;> omega

set_option maxHeartbeats 1000000 in
lemma monthOffset_succ (y : Int) (m : Nat) (h : m ≤ 10) :
    monthOffset y (m + 1) = monthOffset y m + monthLen y m := by
  interval_cases m <;> cases hL : isLeap y <;>
    simp [monthOffset, monthBase, monthLen, hL]

lemma monthBase_of_ge11 (m : Nat) (h : 11 ≤ m) : monthBase m = 334 := by
  have h0 : m ≠ 0 := by omega
  have h1 : m ≠ 1 := by omega
  have h2 : m ≠ 2 := by omega
  have h3 : m ≠ 3 := by omega
  have h4 : m ≠ 4 := by omega
  have h5 : m ≠ 5 := by omega
  have h6 : m ≠ 6 := by omega
  have h7 : m ≠ 7 := by omega
  have h8 : m ≠ 8 := by omega
  have h9 : m ≠ 9 := by omega
  have h10 : m ≠ 10 := by omega
  simp [monthBase, h0, h1, h2, h3, h4, h5, h6, h7, h8, h9, h10]

lemma monthOffset_of_ge11 (y : Int) (m : Nat) (h : 11 ≤ m) :
    monthOffset y m = 334 + (if isLeap y then 1 else 0) := by
  have e : monthBase m = 334 := monthBase_of_ge11 m h
  have h2 : 2 ≤ m := by omega
  simp [monthOffset, e, h2]

lemma monthLen_of_ge11 (y : Int) (m : Nat) (h : 11 ≤ m) : monthLen y m = 31 := by
  unfold monthLen
  split_ifs <;> omega

/-- `rollDay` only renormalises the representation: the timestamp is unchanged. -/
lemma dayNumber_rollDay (y : Int) (m : Nat) (d : Int) :
    dayNumber (rollDay y m d) = dayNumberRaw y m d := by
  unfold rollDay
  split
  · rfl
  · split
    · next h11 =>
      have h1 := monthOffset_of_ge11 y m h11
      have h2 := monthLen_of_ge11 y m h11
      have h3 := daysBeforeYear_succ y
      have h4 : monthOffset (y + 1) 0 = 0 := by simp [monthOffset, monthBase]
      simp only [dayNumber, dayNumberRaw]
      split_ifs at h1 h3 <;> omega
    · next h11 =>
      have h1 := monthOffset_succ y m (by omega)
      simp only [dayNumber, dayNumberRaw] at *
      omega

lemma dayNumber_jsAddDays (dt : CivilDate) (k : Int) :
    dayNumber (jsAddDays dt k) = dayNumber dt + k := by
  rw [jsAddDays, dayNumber_rollDay]
  simp only [dayNumber, dayNumberRaw]; omega

lemma dayNumber_jsAddMonth (dt : CivilDate) :
    dayNumber (jsAddMonth dt) = dayNumber dt + monthLen dt.year dt.month := by
  unfold jsAddMonth
  split
  · next h11 =>
    have h1 := monthOffset_of_ge11 dt.year dt.month h11
    have h2 := monthLen_of_ge11 dt.year dt.month h11
    have h3 := daysBeforeYear_succ dt.year
    have h4 : monthOffset (dt.year + 1) 0 = 0 := by simp [monthOffset, monthBase]
    rw [dayNumber_rollDay]
    simp only [dayNumber, dayNumberRaw]
    split_ifs at h1 h3 <;> omega
  · next h11 =>
    have h1 := monthOffset_succ dt.year dt.month (by omega)
    rw [dayNumber_rollDay]
    simp only [dayNumber, dayNumberRaw] at *
    omega

lemma monthOffset_sub_le (y z : Int) (m : Nat) :
    monthOffset y m - monthOffset z m ≤ 1 ∧ monthOffset z m - monthOffset y m ≤ 1 := by
  unfold monthOffset
  split_ifs <;> omega

lemma dayNumber_jsAddYear (dt : CivilDate) :
    dayNumber dt + 364 ≤ dayNumber (jsAddYear dt) ∧
      dayNumber (jsAddYear dt) ≤ dayNumber dt + 367 := by
  have h3 := daysBeforeYear_succ dt.year
  have h4 := monthOffset_sub_le (dt.year + 1) dt.year dt.month
  rw [jsAddYear, dayNumber_rollDay]
  simp only [dayNumber, dayNumberRaw]
  split_ifs at h3 <;> omega

/-- One `setFullYear`-style year step, relative to a shared anchor. -/
lemma dayNumber_yearAddK_succ (dt : CivilDate) (k : Nat) :
    dayNumber (yearAddK dt k) + 364 ≤ dayNumber (yearAddK dt (k + 1)) := by
  have h3 := daysBeforeYear_succ (dt.year + k)
  have h4 := monthOffset_sub_le (dt.year + k + 1) (dt.year + k) dt.month
  rw [yearAddK, yearAddK, dayNumber_rollDay, dayNumber_rollDay]
  simp only [dayNumberRaw]
  have e : (dt.year + (k + 1 : Nat)) = (dt.year + k) + 1 := by push_cast; ring
  rw [e]
  split_ifs at h3 <;> omega

/-- One `setMonth`-style month step, relative to a shared anchor. -/
lemma dayNumber_monthAddK_succ (dt : CivilDate) (k : Nat) :
    dayNumber (monthAddK dt k) + 28 ≤ dayNumber (monthAddK dt (k + 1)) := by
  rw [monthAddK, monthAddK, dayNumber_rollDay, dayNumber_rollDay]
  simp only [dayNumberRaw]
  rcases Nat.lt_or_ge ((dt.month + k) % 12) 11 with hlt | hge
  · have e1 : (dt.month + (k + 1)) / 12 = (dt.month + k) / 12 := by omega
    have e2 : (dt.month + (k + 1)) % 12 = (dt.month + k) % 12 + 1 := by omega
    rw [e1, e2, monthOffset_succ _ _ (by omega)]
    have := monthLen_ge (dt.year + ((dt.month + k) / 12 : Nat)) ((dt.month + k) % 12)
    omega
  · have h11 : (dt.month + k) % 12 = 11 := by omega
    have e1 : (dt.month + (k + 1)) / 12 = (dt.month + k) / 12 + 1 := by omega
    have e2 : (dt.month + (k + 1)) % 12 = 0 := by omega
    rw [e1, e2, h11]
    have e3 : (dt.year + ((dt.month + k) / 12 + 1 : Nat)) =
        (dt.year + ((dt.month + k) / 12 : Nat)) + 1 := by push_cast; ring
    rw [e3]
    have h1 := monthOffset_of_ge11 (dt.year + ((dt.month + k) / 12 : Nat)) 11 (by omega)
    have h3 := daysBeforeYear_succ (dt.year + ((dt.month + k) / 12 : Nat))
    have h4 : monthOffset ((dt.year + ((dt.month + k) / 12 : Nat)) + 1) 0 = 0 := by
      simp [monthOffset, monthBase]
    split_ifs at h1 h3 <;> omega

lemma dayNumber_freqStep_lt (f : Freq) (dt : CivilDate) :
    dayNumber dt < dayNumber (freqStep f dt) := by
  cases f
  · rw [freqStep, dayNumber_jsAddDays]; omega
  · rw [freqStep, dayNumber_jsAddDays]; omega
  · rw [freqStep, dayNumber_jsAddMonth]
    have := monthLen_ge dt.year dt.month; omega
  · have := dayNumber_jsAddYear dt
    rw [freqStep]; omega

namespace CreateBill

lemma catchUpLoop_gt (f : Freq) (todayN : Int) :
    ∀ (fuel : Nat) (dt : CivilDate), todayN + 1 - dayNumber dt ≤ fuel →
      todayN < dayNumber (catchUpLoop f todayN fuel dt)
  | 0, dt, h => by simp only [catchUpLoop]; omega
  | fuel + 1, dt, h => by
    rw [catchUpLoop]
    split
    · next hle =>
      have hstep := dayNumber_freqStep_lt f dt
      exact catchUpLoop_gt f todayN fuel (freqStep f dt) (by omega)
    · next hgt => omega

end CreateBill

namespace Recurring

lemma monthSearch_gt (start : CivilDate) (currentN : Int) :
    ∀ (fuel k : Nat), currentN + 1 - dayNumber (monthAddK start k) ≤ fuel →
      currentN < dayNumber (monthSearch start currentN fuel k)
  | 0, k, h => by simp only [monthSearch]; omega
  | fuel + 1, k, h => by
    rw [monthSearch]
    split
    · next hle =>
      have hstep := dayNumber_monthAddK_succ start k
      exact monthSearch_gt start currentN fuel (k + 1) (by omega)
    · next hgt => omega

lemma yearSearch_gt (start : CivilDate) (currentN : Int) :
    ∀ (fuel k : Nat), currentN + 1 - dayNumber (yearAddK start k) ≤ fuel →
      currentN < dayNumber (yearSearch start currentN fuel k)
  | 0, k, h => by simp only [yearSearch]; omega
  | fuel + 1, k, h => by
    rw [yearSearch]
    split
    · next hle =>
      have hstep := dayNumber_yearAddK_succ start k
      exact yearSearch_gt start currentN fuel (k + 1) (by omega)
    · next hgt => omega

/-- Whatever `calculateNextOccurrence` returns is strictly later than the
reference date: the function computes the NEXT occurrence, never the current
one. -/
lemma calculateNextOccurrence_gt (startDate : CivilDate) (frequency : Option Freq)
    (currentN : Int) (nd : CivilDate)
    (h : calculateNextOccurrence startDate frequency currentN = some nd) :
    currentN < dayNumber nd := by
  unfold calculateNextOccurrence at h
  split at h
  · exact absurd h (by simp)
  · next hstart =>
    match frequency with
    | none => exact absurd h (by simp)
    | some .daily =>
      simp only [Option.some.injEq] at h
      subst h
      simp only [dayNumber, dayNumberRaw]
      simp only [dayNumber, dayNumberRaw] at hstart
      omega
    | some .weekly =>
      simp only [Option.some.injEq] at h
      subst h
      simp only [dayNumber, dayNumberRaw]
      simp only [dayNumber, dayNumberRaw] at hstart
      omega
    | some .monthly =>
      simp only [Option.some.injEq] at h
      subst h
      exact monthSearch_gt startDate currentN _ 1 (by omega)
    | some .yearly =>
      simp only [Option.some.injEq] at h
      subst h
      exact yearSearch_gt startDate currentN _ 1 (by omega)

end Recurring

/-! ## Claim C1: catch-up next-due-date monotonicity -/

/-- **C1**: for every anchor date `A`, frequency `F` and reference date `ref`,
the catch-up calculation `calculateNextDueDate` of `createBill` returns a date
strictly greater than `ref` whenever `ref >= A`, and returns `A` unchanged
whenever `ref < A`. -/
theorem catchup_next_due_date_monotone (A ref : CivilDate) (F : Freq) :
    (dayNumber A ≤ dayNumber ref →
      dayNumber ref < dayNumber (CreateBill.calculateNextDueDate A F ref)) ∧
    (dayNumber ref < dayNumber A → CreateBill.calculateNextDueDate A F ref = A) := by
  constructor
  · intro h
    unfold CreateBill.calculateNextDueDate
    rw [if_neg (by omega)]
    exact CreateBill.catchUpLoop_gt F (dayNumber ref) _ A (by omega)
  · intro h
    unfold CreateBill.calculateNextDueDate
    rw [if_pos h]

/-- Witness for C1 at a monthly bill anchored 2024-01-15 with reference
2024-04-10 (catch-up case), and a weekly bill anchored 2024-06-01 with
reference 2024-04-10 (future-anchor case). -/
theorem catchup_next_due_date_monotone_witness :
    dayNumber (⟨2024, 3, 10⟩ : CivilDate) <
      dayNumber (CreateBill.calculateNextDueDate ⟨2024, 0, 15⟩ .monthly ⟨2024, 3, 10⟩) ∧
    CreateBill.calculateNextDueDate ⟨2024, 5, 1⟩ .weekly ⟨2024, 3, 10⟩ = ⟨2024, 5, 1⟩ :=
  ⟨(catchup_next_due_date_monotone ⟨2024, 0, 15⟩ ⟨2024, 3, 10⟩ .monthly).1 (by decide),
   (catchup_next_due_date_monotone ⟨2024, 5, 1⟩ ⟨2024, 3, 10⟩ .weekly).2 (by decide)⟩

/-! ## Claim C7: the overdue sweep is exact and idempotent -/

lemma sweepRow_idem (todayN : Int) (b : Bill) :
    BillReminders.sweepRow todayN (BillReminders.sweepRow todayN b) =
      BillReminders.sweepRow todayN b := by
  unfold BillReminders.sweepRow
  split
  · next h =>
    rw [if_neg]
    intro hc
    exact absurd hc.1 (by simp)
  · rfl

lemma sweepOverdue_idem (todayN : Int) (bills : List Bill) :
    BillReminders.sweepOverdue todayN (BillReminders.sweepOverdue todayN bills) =
      BillReminders.sweepOverdue todayN bills := by
  unfold BillReminders.sweepOverdue
  rw [List.map_map]
  exact List.map_congr_left (fun b _ => sweepRow_idem todayN b)

/-- **C7**: the sweep touches exactly the rows with `status = pending` and
`nextDueDate < referenceDate` (setting them to `overdue` and changing nothing
else), and running it twice with the same reference date changes no further
rows. -/
theorem sweep_overdue_exact_and_idempotent (refN : Int) (bills : List Bill) :
    (BillReminders.sweepOverdue refN bills).length = bills.length ∧
    (∀ (i : Nat) (b b' : Bill), bills[i]? = some b →
      (BillReminders.sweepOverdue refN bills)[i]? = some b' →
      (b' ≠ b ↔ b.status = .pending ∧ dayNumber b.nextDueDate < refN) ∧
      (b.status = .pending ∧ dayNumber b.nextDueDate < refN →
        b' = { b with status := .overdue }) ∧
      (¬ (b.status = .pending ∧ dayNumber b.nextDueDate < refN) → b' = b)) ∧
    BillReminders.sweepOverdue refN (BillReminders.sweepOverdue refN bills) =
      BillReminders.sweepOverdue refN bills := by
  refine ⟨by simp [BillReminders.sweepOverdue], ?_, sweepOverdue_idem refN bills⟩
  intro i b b' hb hb'
  rw [BillReminders.sweepOverdue, List.getElem?_map, hb] at hb'
  simp only [Option.map_some', Option.some.injEq] at hb'
  subst hb'
  unfold BillReminders.sweepRow
  split
  · next h =>
    refine ⟨⟨fun _ => h, fun _ => ?_⟩, fun _ => rfl, fun hc => absurd h hc⟩
    intro he
    have : BillStatus.overdue = b.status := congrArg Bill.status he
    rw [h.1] at this
    exact absurd this (by simp)
  · next h =>
    exact ⟨⟨fun he => absurd rfl he, fun hc => absurd hc h⟩, fun hc => absurd hc h,
      fun _ => rfl⟩

/-- Witness for C7 on a one-bill state: sweeping with reference 2024-01-05
really changes the pending bill due 2024-01-01 (to overdue). -/
theorem sweep_overdue_witness :
    ({ billW with status := BillStatus.overdue } : Bill) ≠ billW :=
  ((sweep_overdue_exact_and_idempotent (dayNumber ⟨2024, 0, 5⟩) [billW]).2.1 0 billW
    { billW with status := BillStatus.overdue } rfl (by decide)).1.mpr (by decide)

/-! ## Claims C3 and C8: the recurring-transaction projector -/

lemma recStep_id (todayN : Int) (acc : DB × Nat × Nat) (tmpl : Transaction) :
    Recurring.recStep todayN acc tmpl = (acc.1, acc.2.1 + 1, acc.2.2) := by
  unfold Recurring.recStep
  cases h : Recurring.calculateNextOccurrence tmpl.date tmpl.recurringFrequency todayN with
  | none => rfl
  | some nd =>
    have hgt := Recurring.calculateNextOccurrence_gt tmpl.date tmpl.recurringFrequency todayN nd h
    dsimp only
    rw [if_neg (by omega)]

lemma foldl_recStep (todayN : Int) :
    ∀ (l : List Transaction) (db : DB) (p c : Nat),
      l.foldl (Recurring.recStep todayN) (db, p, c) = (db, p + l.length, c)
  | [], db, p, c => by simp
  | t :: l, db, p, c => by
    rw [List.foldl_cons, recStep_id todayN (db, p, c) t]
    dsimp only
    rw [foldl_recStep todayN l db (p + 1) c]
    have e : p + 1 + l.length = p + (t :: l).length := by
      simp only [List.length_cons]; omega
    rw [e]

/-- `processRecurring` never inserts anything: every next occurrence it
computes is strictly after `today`, so the `nextDate <= today` insertion guard
is never satisfied. -/
lemma processRecurring_eq (todayN : Int) (db : DB) :
    Recurring.processRecurring todayN db =
      (db, (db.transactions.filter (Recurring.isActiveTemplate todayN)).length, 0) := by
  unfold Recurring.processRecurring
  rw [foldl_recStep]
  simp

/-- **C8**: running the projector a second time for the same reference day
creates zero additional ledger rows and leaves the transaction store exactly
as the first run left it.  (This holds degenerately: as shown for C3, the
insertion guard is unsatisfiable, so every run creates zero rows.) -/
theorem projector_second_run_creates_nothing (todayN : Int) (db : DB) :
    (Recurring.processRecurring todayN (Recurring.processRecurring todayN db).1).2.2 = 0 ∧
    (Recurring.processRecurring todayN (Recurring.processRecurring todayN db).1).1 =
      (Recurring.processRecurring todayN db).1 := by
  rw [processRecurring_eq todayN db]
  rw [processRecurring_eq]
  exact ⟨rfl, rfl⟩

/-- **C3** (failing-input evaluation): with the template of the scenario
(`date = 2024-01-01`, weekly) and `today = 2024-01-22`, the code computes the
next occurrence 2024-01-29 — strictly after today — and therefore materializes
nothing: the run returns `created = 0` and leaves the store unchanged, instead
of inserting the 2024-01-15 occurrence required by the specification. -/
theorem projector_scenario_never_materializes :
    Recurring.calculateNextOccurrence ⟨2024, 0, 1⟩ (some .weekly)
      (dayNumber ⟨2024, 0, 22⟩) = some ⟨2024, 0, 29⟩ ∧
    Recurring.processRecurring (dayNumber ⟨2024, 0, 22⟩) dbScenarioC3 =
      (dbScenarioC3, 1, 0) ∧
    (Recurring.processRecurring (dayNumber ⟨2024, 0, 22⟩) dbScenarioC3).1.transactions.length = 1 := by
  refine ⟨by decide, ?_, ?_⟩
  · rw [processRecurring_eq]
    decide
  · rw [processRecurring_eq]
    rfl

/-! ## Claims C2, C4, C9: `markBillPaid` -/

/-- `find?` by id over an id-preserving single-row update commutes with the
update. -/
lemma find?_map_update (l : List Bill) (i : Int) (g : Bill → Bill)
    (hg : ∀ b, (g b).id = b.id) :
    (l.map (fun b => if b.id = i then g b else b)).find? (fun b => b.id == i) =
      (l.find? (fun b => b.id == i)).map (fun b => g b) := by
  induction l with
  | nil => rfl
  | cons hd tl ih =>
    rw [List.map_cons]
    by_cases h : hd.id = i
    · rw [if_pos h, List.find?_cons_of_pos _ (by simp [hg, h]),
        List.find?_cons_of_pos _ (by simp [h])]
      simp
    · rw [if_neg h, List.find?_cons_of_neg _ (by simp [h]),
        List.find?_cons_of_neg _ (by simp [h]), ih]

/-- **C2**: a successful `markBillPaid` sets the bill's status to `paid`,
`lastPaidDate` to the provided (or defaulted) `paidDate`, and `nextDueDate` to
the current `nextDueDate` advanced by exactly one period of the bill's
frequency — one day, seven days, one calendar month (the current month's
length in days), or one calendar year — computed from the current
`nextDueDate` only; in particular a monthly advance of 2024-04-15 gives
2024-05-15. -/
theorem markPaid_advances_one_period :
    (∀ (now : CivilDate) (db : DB) (req : MarkBillPaid.Request) (bill : Bill)
        (resp : MarkBillPaid.Response),
      db.bills.find? (fun b => b.id == req.id) = some bill →
      (MarkBillPaid.markBillPaid false now db req).2 = .ok resp →
      resp.nextDueDate = MarkBillPaid.calculateNextDueDate bill.nextDueDate bill.frequency ∧
      resp.payment.paidDate = req.paidDate.getD now ∧
      (MarkBillPaid.markBillPaid false now db req).1.bills.find?
          (fun b => b.id == req.id) =
        some { bill with
               status := .paid,
               lastPaidDate := some (req.paidDate.getD now),
               nextDueDate :=
                 MarkBillPaid.calculateNextDueDate bill.nextDueDate bill.frequency } ∧
      (MarkBillPaid.markBillPaid false now db req).1.billPayments =
        db.billPayments ++ [resp.payment]) ∧
    (∀ D : CivilDate,
      dayNumber (MarkBillPaid.calculateNextDueDate D .daily) = dayNumber D + 1) ∧
    (∀ D : CivilDate,
      dayNumber (MarkBillPaid.calculateNextDueDate D .weekly) = dayNumber D + 7) ∧
    (∀ D : CivilDate,
      dayNumber (MarkBillPaid.calculateNextDueDate D .monthly) =
        dayNumber D + monthLen D.year D.month) ∧
    MarkBillPaid.calculateNextDueDate ⟨2024, 3, 15⟩ .monthly = ⟨2024, 4, 15⟩ := by
  refine ⟨?_, fun D => dayNumber_jsAddDays D 1, fun D => dayNumber_jsAddDays D 7,
    fun D => dayNumber_jsAddMonth D, by decide⟩
  intro now db req bill resp hfind hok
  by_cases h1 : req.id ≤ 0
  · rw [MarkBillPaid.markBillPaid, if_pos h1] at hok
    exact absurd hok (by simp)
  simp only [MarkBillPaid.markBillPaid, hfind] at hok ⊢
  rw [if_neg h1] at hok ⊢
  by_cases h2 : jsOrAmount req.amount bill.amount ≤ 0
  · rw [if_pos h2] at hok
    exact absurd hok (by simp)
  rw [if_neg h2] at hok ⊢
  by_cases h3 : maxAmount < jsOrAmount req.amount bill.amount
  · rw [if_pos h3] at hok
    exact absurd hok (by simp)
  rw [if_neg h3] at hok ⊢
  by_cases h4 : MarkBillPaid.txnRefOk db req = false
  · rw [if_pos h4] at hok
    exact absurd hok (by simp)
  rw [if_neg h4] at hok ⊢
  rw [if_neg (by simp)] at hok ⊢
  simp only [Except.ok.injEq] at hok
  subst hok
  refine ⟨rfl, rfl, ?_, rfl⟩
  dsimp only
  rw [find?_map_update db.bills req.id
    (fun b =>
      { b with
        status := .paid,
        lastPaidDate := some (req.paidDate.getD now),
        nextDueDate :=
          MarkBillPaid.calculateNextDueDate bill.nextDueDate bill.frequency })
    (fun b => rfl), hfind]
  rfl

/-- Witness for C2: the scenario bill (monthly, nextDueDate 2024-04-15) paid
on 2024-04-18 ends paid with lastPaidDate 2024-04-18 and nextDueDate
2024-05-15. -/
theorem markPaid_advances_one_period_witness :
    respC2.nextDueDate =
      MarkBillPaid.calculateNextDueDate billC2.nextDueDate billC2.frequency ∧
    respC2.payment.paidDate = reqC2.paidDate.getD ⟨2024, 3, 20⟩ ∧
    (MarkBillPaid.markBillPaid false ⟨2024, 3, 20⟩ dbC2 reqC2).1.bills.find?
        (fun b => b.id == reqC2.id) =
      some { billC2 with
             status := .paid,
             lastPaidDate := some (reqC2.paidDate.getD ⟨2024, 3, 20⟩),
             nextDueDate :=
               MarkBillPaid.calculateNextDueDate billC2.nextDueDate billC2.frequency } ∧
    (MarkBillPaid.markBillPaid false ⟨2024, 3, 20⟩ dbC2 reqC2).1.billPayments =
      dbC2.billPayments ++ [respC2.payment] :=
  markPaid_advances_one_period.1 ⟨2024, 3, 20⟩ dbC2 reqC2 billC2 respC2
    (by decide) (by decide)

/-- **C4**: when the `UPDATE bills` statement inside the transaction fails
after the `bill_payments` insert succeeded, the ROLLBACK leaves the entire
database state unchanged (no payment row persists, the bill keeps its status,
lastPaidDate and nextDueDate) and the internal error is surfaced; nothing is
retried. -/
theorem markPaid_atomic_on_update_failure
    (now : CivilDate) (db : DB) (req : MarkBillPaid.Request) (bill : Bill)
    (hfind : db.bills.find? (fun b => b.id == req.id) = some bill)
    (hid : 0 < req.id)
    (hamt : 0 < jsOrAmount req.amount bill.amount)
    (hmax : jsOrAmount req.amount bill.amount ≤ maxAmount)
    (htxn : MarkBillPaid.txnRefOk db req = true) :
    MarkBillPaid.markBillPaid true now db req =
      (db, .error (.internal "failed to mark bill as paid")) := by
  have h1 : ¬ req.id ≤ 0 := by omega
  have h2 : ¬ jsOrAmount req.amount bill.amount ≤ 0 := by
    intro hc; exact absurd hamt (by linarith)
  have h3 : ¬ maxAmount < jsOrAmount req.amount bill.amount := not_lt.mpr hmax
  have h4 : ¬ MarkBillPaid.txnRefOk db req = false := by simp [htxn]
  simp only [MarkBillPaid.markBillPaid, hfind]
  rw [if_neg h1, if_neg h2, if_neg h3, if_neg h4, if_pos True.intro]

/-- Witness for C4 on a one-bill database state. -/
theorem markPaid_atomic_witness :
    MarkBillPaid.markBillPaid true ⟨2024, 3, 20⟩ dbC2 reqC2 =
      (dbC2, .error (.internal "failed to mark bill as paid")) :=
  markPaid_atomic_on_update_failure ⟨2024, 3, 20⟩ dbC2 reqC2 billC2
    (by decide) (by decide) (by decide) (by decide) (by decide)

/-- **C9 counterexample**: the caller supplies amount `0` — which is not
strictly greater than `0`, so by the claim the call must fail with
invalid-argument — yet the operation succeeds, silently replacing the `0` by
the bill's configured amount 50 (JS `req.amount || bill.amount` treats `0` as
absent). -/
theorem markPaid_zero_amount_not_rejected :
    reqC9.amount = some 0 ∧
    (MarkBillPaid.markBillPaid false ⟨2024, 3, 20⟩ dbC9 reqC9).2 =
      .ok { payment := { billId := 1, transactionId := none, amount := 50,
                         paidDate := ⟨2024, 3, 18⟩, isAutoDetected := false,
                         notes := none },
            nextDueDate := ⟨2024, 4, 15⟩ } :=
  ⟨rfl, by decide⟩

/-- **C9 (amended)**: a supplied amount of `0` is treated like an omitted
amount and defaults to the bill's configured amount; the call fails with
invalid-argument exactly when the effective amount (after this defaulting) is
`≤ 0` or exceeds 999,999,999.99, and on such a failure the state is returned
unchanged (no payment row, bill untouched). -/
theorem markPaid_amount_contract_amended :
    (∀ (req : MarkBillPaid.Request) (bill : Bill),
      req.amount = none ∨ req.amount = some 0 →
        jsOrAmount req.amount bill.amount = bill.amount) ∧
    (∀ (fu : Bool) (now : CivilDate) (db : DB) (req : MarkBillPaid.Request)
        (bill : Bill),
      db.bills.find? (fun b => b.id == req.id) = some bill → 0 < req.id →
      (jsOrAmount req.amount bill.amount ≤ 0 →
        MarkBillPaid.markBillPaid fu now db req =
          (db, .error (.invalidArgument "payment amount must be greater than 0"))) ∧
      (maxAmount < jsOrAmount req.amount bill.amount →
        MarkBillPaid.markBillPaid fu now db req =
          (db, .error (.invalidArgument "payment amount cannot exceed 999,999,999.99")))) := by
  constructor
  · intro req bill h
    rcases h with h | h <;> rw [h] <;> simp [jsOrAmount]
  · intro fu now db req bill hfind hid
    have h1 : ¬ req.id ≤ 0 := by omega
    constructor
    · intro hle
      simp only [MarkBillPaid.markBillPaid, hfind]
      rw [if_neg h1, if_pos hle]
    · intro hgt
      have hmax0 : (0 : ℚ) < maxAmount := by norm_num [maxAmount]
      have h2 : ¬ jsOrAmount req.amount bill.amount ≤ 0 := by linarith
      simp only [MarkBillPaid.markBillPaid, hfind]
      rw [if_neg h1, if_neg h2, if_pos hgt]

/-- Witness for C9 (amended): a supplied negative amount is rejected with
invalid-argument and the state is unchanged; an omitted amount defaults to the
bill's configured amount. -/
theorem markPaid_amount_contract_amended_witness :
    jsOrAmount none billC9.amount = billC9.amount ∧
    MarkBillPaid.markBillPaid false ⟨2024, 3, 20⟩ dbC9
        { id := 1, amount := some (-5), paidDate := none,
          transactionId := none, notes := none } =
      (dbC9, .error (.invalidArgument "payment amount must be greater than 0")) :=
  ⟨markPaid_amount_contract_amended.1
      { id := 1, amount := none, paidDate := none, transactionId := none,
        notes := none } billC9 (Or.inl rfl),
   (markPaid_amount_contract_amended.2 false ⟨2024, 3, 20⟩ dbC9
      { id := 1, amount := some (-5), paidDate := none, transactionId := none,
        notes := none } billC9 (by decide) (by decide)).1 (by decide)⟩

/-! ## Claim C5: budget alert classification boundaries -/

/-- **C5**: with the default thresholds (warning 80, danger 90), utilization
percentages 59.9 and 60.0 produce no alert, 80.0 produces `warning`, 90.0
produces `danger`, 100.0 produces `exceeded`; and the alert list never
contains a budget whose percentage is below the warning threshold.  The
concrete runs evaluate the full pipeline on a budget of 1000. -/
theorem budget_alert_classification :
    Notifications.classify (mkRat 599 10) = none ∧
    Notifications.classify 60 = none ∧
    Notifications.classify 80 = some .warning ∧
    Notifications.classify 90 = some .danger ∧
    Notifications.classify 100 = some .exceeded ∧
    (∀ (todayN : Int) (db : DB) (a : Notifications.BudgetAlert),
      a ∈ Notifications.processBudgetAlerts todayN db →
        Notifications.warningThreshold ≤ a.percentage) ∧
    Notifications.processBudgetAlerts (dayNumber ⟨2024, 0, 15⟩) (dbC5 599) = [] ∧
    Notifications.processBudgetAlerts (dayNumber ⟨2024, 0, 15⟩) (dbC5 600) = [] ∧
    (Notifications.processBudgetAlerts (dayNumber ⟨2024, 0, 15⟩) (dbC5 800)).map
      (fun a => a.alertType) = [.warning] ∧
    (Notifications.processBudgetAlerts (dayNumber ⟨2024, 0, 15⟩) (dbC5 900)).map
      (fun a => a.alertType) = [.danger] ∧
    (Notifications.processBudgetAlerts (dayNumber ⟨2024, 0, 15⟩) (dbC5 1000)).map
      (fun a => a.alertType) = [.exceeded] := by
  have d1 : decide (dayNumber (⟨2024, 0, 1⟩ : CivilDate) ≤
      dayNumber (⟨2024, 0, 10⟩ : CivilDate)) = true := rfl
  have d2 : dayNumber (⟨2024, 0, 1⟩ : CivilDate) ≤
      dayNumber (⟨2024, 0, 15⟩ : CivilDate) := by decide
  refine ⟨by decide, by decide, by decide, by decide, by decide, ?_, ?A, ?B, ?C, ?D, ?E⟩
  case A =>
    simp only [Notifications.processBudgetAlerts, dbC5, budgetC5, catC5, List.filterMap,
      List.find?, Notifications.inWindow, Notifications.budgetSpent, List.filter,
      Notifications.classify, Notifications.warningThreshold,
      Notifications.dangerThreshold, d1, d2]
    norm_num
  case B =>
    simp only [Notifications.processBudgetAlerts, dbC5, budgetC5, catC5, List.filterMap,
      List.find?, Notifications.inWindow, Notifications.budgetSpent, List.filter,
      Notifications.classify, Notifications.warningThreshold,
      Notifications.dangerThreshold, d1, d2]
    norm_num
  case C =>
    simp only [Notifications.processBudgetAlerts, dbC5, budgetC5, catC5, List.filterMap,
      List.find?, Notifications.inWindow, Notifications.budgetSpent, List.filter,
      Notifications.classify, Notifications.warningThreshold,
      Notifications.dangerThreshold, d1, d2]
    norm_num
  case D =>
    simp only [Notifications.processBudgetAlerts, dbC5, budgetC5, catC5, List.filterMap,
      List.find?, Notifications.inWindow, Notifications.budgetSpent, List.filter,
      Notifications.classify, Notifications.warningThreshold,
      Notifications.dangerThreshold, d1, d2]
    norm_num
  case E =>
    simp only [Notifications.processBudgetAlerts, dbC5, budgetC5, catC5, List.filterMap,
      List.find?, Notifications.inWindow, Notifications.budgetSpent, List.filter,
      Notifications.classify, Notifications.warningThreshold,
      Notifications.dangerThreshold, d1, d2]
    norm_num
  intro todayN db a ha
  unfold Notifications.processBudgetAlerts at ha
  rw [List.mem_filterMap] at ha
  obtain ⟨b, hb, hfb⟩ := ha
  cases hc : db.categories.find? (fun c => c.id == b.categoryId) with
  | none => rw [hc] at hfb; exact absurd hfb (by simp)
  | some c =>
    rw [hc] at hfb
    dsimp only at hfb
    split at hfb
    · rw [Option.map_eq_some'] at hfb
      obtain ⟨t, hct, hat⟩ := hfb
      subst hat
      dsimp only
      unfold Notifications.classify at hct
      unfold Notifications.warningThreshold
      split_ifs at hct with hA hB hC
      · linarith
      · unfold Notifications.dangerThreshold at hB
        linarith
      · exact hC
    · exact absurd hfb (by simp)

/-- Witness for C5: the alert generated at exactly 80% utilization sits at the
warning threshold, so it is (just) allowed into the alert list. -/
theorem budget_alert_classification_witness :
    Notifications.warningThreshold ≤ alertC5.percentage :=
  budget_alert_classification.2.2.2.2.2.1 (dayNumber ⟨2024, 0, 15⟩) (dbC5 800)
    alertC5 (by
      have d1 : decide (dayNumber (⟨2024, 0, 1⟩ : CivilDate) ≤
          dayNumber (⟨2024, 0, 10⟩ : CivilDate)) = true := rfl
      have d2 : dayNumber (⟨2024, 0, 1⟩ : CivilDate) ≤
          dayNumber (⟨2024, 0, 15⟩ : CivilDate) := by decide
      simp only [Notifications.processBudgetAlerts, dbC5, budgetC5, catC5,
        List.filterMap, List.find?, Notifications.inWindow,
        Notifications.budgetSpent, List.filter, Notifications.classify,
        Notifications.warningThreshold, Notifications.dangerThreshold, d1, d2,
        alertC5, List.mem_singleton]
      norm_num)

/-! ## Claim C10: month/year rollover semantics -/

/-- **C10**: every monthly advance in the code (`setMonth(getMonth() + 1)`)
moves the timestamp forward by exactly the length of the current month, i.e.
a day-of-month that does not exist in the target month rolls over into the
following month instead of clamping; concretely, Jan 31 plus one calendar
month is Mar 2 in 2024 (leap) and Mar 3 in 2023 — not Feb 29/28 — in all four
code sites (bill-creation catch-up, markPaid advance, auto-matcher advance,
recurring projection), and Feb 29 plus one calendar year is Mar 1. -/
theorem month_advance_rolls_over :
    (∀ dt : CivilDate,
      dayNumber (jsAddMonth dt) = dayNumber dt + monthLen dt.year dt.month) ∧
    MarkBillPaid.calculateNextDueDate ⟨2024, 0, 31⟩ .monthly = ⟨2024, 2, 2⟩ ∧
    AutoDetect.calculateNextDueDate ⟨2024, 0, 31⟩ .monthly = ⟨2024, 2, 2⟩ ∧
    CreateBill.calculateNextDueDate ⟨2024, 0, 31⟩ .monthly ⟨2024, 1, 5⟩ = ⟨2024, 2, 2⟩ ∧
    Recurring.calculateNextOccurrence ⟨2024, 0, 31⟩ (some .monthly)
      (dayNumber ⟨2024, 1, 5⟩) = some ⟨2024, 2, 2⟩ ∧
    MarkBillPaid.calculateNextDueDate ⟨2023, 0, 31⟩ .monthly = ⟨2023, 2, 3⟩ ∧
    MarkBillPaid.calculateNextDueDate ⟨2024, 0, 31⟩ .monthly ≠ ⟨2024, 1, 29⟩ ∧
    MarkBillPaid.calculateNextDueDate ⟨2024, 1, 29⟩ .yearly = ⟨2025, 2, 1⟩ :=
  ⟨dayNumber_jsAddMonth, by decide, by decide, by decide, by decide, by decide,
   by decide, by decide⟩

/-! ## Claim C6: auto-matcher exclusivity -/

lemma better_spec (nd : Int) (acc : Option Transaction) (x : Transaction) :
    ∃ b, AutoDetect.better nd acc x = some b ∧ (b = x ∨ acc = some b) ∧
      |dayNumber b.date - nd| ≤ |dayNumber x.date - nd| ∧
      (∀ a, acc = some a → |dayNumber b.date - nd| ≤ |dayNumber a.date - nd|) := by
  cases acc with
  | none =>
    exact ⟨x, rfl, Or.inl rfl, le_refl _, fun a ha => by cases ha⟩
  | some a =>
    unfold AutoDetect.better
    dsimp only
    by_cases hlt : |dayNumber x.date - nd| < |dayNumber a.date - nd|
    · refine ⟨x, by rw [if_pos hlt], Or.inl rfl, le_refl _, ?_⟩
      intro a2 ha2
      rw [Option.some.injEq] at ha2
      rw [← ha2]
      exact le_of_lt hlt
    · refine ⟨a, by rw [if_neg hlt], Or.inr rfl, not_lt.mp hlt, ?_⟩
      intro a2 ha2
      rw [Option.some.injEq] at ha2
      rw [← ha2]

lemma better_foldl_spec (nd : Int) :
    ∀ (l : List Transaction) (acc : Option Transaction) (t : Transaction),
      l.foldl (AutoDetect.better nd) acc = some t →
      (acc = some t ∨ t ∈ l) ∧
      (∀ x ∈ l, |dayNumber t.date - nd| ≤ |dayNumber x.date - nd|) ∧
      (∀ b, acc = some b → |dayNumber t.date - nd| ≤ |dayNumber b.date - nd|)
  | [], acc, t, h => by
    simp only [List.foldl_nil] at h
    refine ⟨Or.inl h, by simp, ?_⟩
    intro b hb
    rw [hb, Option.some.injEq] at h
    rw [← h]
  | x :: l, acc, t, h => by
    rw [List.foldl_cons] at h
    obtain ⟨hmem, hmin, hacc⟩ := better_foldl_spec nd l (AutoDetect.better nd acc x) t h
    obtain ⟨b, hbeq, hbor, hbx, hbacc⟩ := better_spec nd acc x
    refine ⟨?_, ?_, ?_⟩
    · rcases hmem with h0 | h0
      · rw [hbeq, Option.some.injEq] at h0
        subst h0
        rcases hbor with h1 | h1
        · refine Or.inr ?_
          rw [h1]
          exact List.mem_cons_self x l
        · exact Or.inl h1
      · exact Or.inr (List.mem_cons_of_mem x h0)
    · intro y hy
      rcases List.mem_cons.mp hy with rfl | hy2
      · exact le_trans (hacc b hbeq) hbx
      · exact hmin y hy2
    · intro a ha
      exact le_trans (hacc b hbeq) (hbacc a ha)

lemma pickBest_spec (nd : Int) (l : List Transaction) (t : Transaction)
    (h : AutoDetect.pickBest nd l = some t) :
    t ∈ l ∧ ∀ x ∈ l, |dayNumber t.date - nd| ≤ |dayNumber x.date - nd| := by
  obtain ⟨hmem, hmin, h3⟩ := better_foldl_spec nd l none t h
  rcases hmem with h0 | h0
  · exact absurd h0 (by simp)
  · exact ⟨h0, hmin⟩

lemma notLinked_append_left (a b : List BillPayment) (tid : Int)
    (h : AutoDetect.notLinked (a ++ b) tid = true) :
    AutoDetect.notLinked a tid = true := by
  simp only [AutoDetect.notLinked, List.any_append, Bool.not_eq_true',
    Bool.or_eq_false_iff] at h
  simp only [AutoDetect.notLinked, Bool.not_eq_true']
  exact h.1

lemma notLinked_single (a : List BillPayment) (p : BillPayment) (tid : Int)
    (h : AutoDetect.notLinked (a ++ [p]) tid = true) :
    p.transactionId ≠ some tid := by
  simp only [AutoDetect.notLinked, List.any_append, Bool.not_eq_true',
    Bool.or_eq_false_iff, List.any_cons, List.any_nil] at h
  have h2 := h.2
  simp only [Bool.or_false, beq_eq_false_iff_ne, ne_eq] at h2
  exact h2.1

lemma autoStep_none (todayN : Int) (db : DB) (n : Nat) (b : Bill)
    (hp : AutoDetect.pickBest (dayNumber b.nextDueDate)
      (db.transactions.filter (AutoDetect.isCandidate todayN db.billPayments b)) = none) :
    AutoDetect.autoStep todayN (db, n) b = (db, n) := by
  unfold AutoDetect.autoStep
  dsimp only
  rw [hp]

lemma autoStep_some (todayN : Int) (db : DB) (n : Nat) (b : Bill) (t : Transaction)
    (hp : AutoDetect.pickBest (dayNumber b.nextDueDate)
      (db.transactions.filter (AutoDetect.isCandidate todayN db.billPayments b)) = some t) :
    AutoDetect.autoStep todayN (db, n) b = (AutoDetect.applyMatch db b t, n + 1) := by
  unfold AutoDetect.autoStep
  dsimp only
  rw [hp]

/-- Invariant of the bill loop of `processAutoDetection`: the run only appends
payment rows, each appended row links a previously-unlinked candidate
transaction of a distinct bill of the remaining list, minimal (among
candidates unlinked at the end of the run) in distance to that bill's due
date, and the appended rows link pairwise distinct transactions. -/
lemma autoFold_spec (todayN : Int) :
    ∀ (bs : List Bill) (db : DB) (n : Nat),
      ∃ new : List BillPayment,
        (bs.foldl (AutoDetect.autoStep todayN) (db, n)).1.transactions =
          db.transactions ∧
        (bs.foldl (AutoDetect.autoStep todayN) (db, n)).1.billPayments =
          db.billPayments ++ new ∧
        (bs.foldl (AutoDetect.autoStep todayN) (db, n)).2 = n + new.length ∧
        (new.map (fun p => p.billId)).Sublist (bs.map (fun b => b.id)) ∧
        new.Pairwise (fun p q => p.transactionId ≠ q.transactionId) ∧
        ∀ p ∈ new, AutoDetect.NewPayOK todayN db.transactions db.billPayments
          ((bs.foldl (AutoDetect.autoStep todayN) (db, n)).1.billPayments) bs p
  | [], db, n => ⟨[], rfl, by simp, by simp, by simp, List.Pairwise.nil, by simp⟩
  | b :: bs, db, n => by
    rw [List.foldl_cons]
    cases hp : AutoDetect.pickBest (dayNumber b.nextDueDate)
        (db.transactions.filter (AutoDetect.isCandidate todayN db.billPayments b)) with
    | none =>
      rw [autoStep_none todayN db n b hp]
      obtain ⟨new, h1, h2, h3, h4, h5, h6⟩ := autoFold_spec todayN bs db n
      refine ⟨new, h1, h2, h3, h4.trans (List.sublist_cons_self _ _), h5, ?_⟩
      intro p hp2
      obtain ⟨hauto, bb, hbb, rest⟩ := h6 p hp2
      exact ⟨hauto, bb, List.mem_cons_of_mem _ hbb, rest⟩
    | some t =>
      rw [autoStep_some todayN db n b t hp]
      obtain ⟨new1, h1, h2, h3, h4, h5, h6⟩ :=
        autoFold_spec todayN bs (AutoDetect.applyMatch db b t) (n + 1)
      have htrans : (AutoDetect.applyMatch db b t).transactions = db.transactions := rfl
      have hpays : (AutoDetect.applyMatch db b t).billPayments =
          db.billPayments ++ [AutoDetect.payFor b t] := rfl
      obtain ⟨htmem, htmin⟩ := pickBest_spec _ _ _ hp
      rw [List.mem_filter] at htmem
      obtain ⟨htxs, hcand⟩ := htmem
      have hcb : AutoDetect.candBasic todayN b t = true ∧
          AutoDetect.notLinked db.billPayments t.id = true := by
        simpa [AutoDetect.isCandidate, Bool.and_eq_true] using hcand
      refine ⟨AutoDetect.payFor b t :: new1, ?_, ?_, ?_, ?_, ?_, ?_⟩
      · rw [h1]
        exact htrans
      · rw [h2, hpays, List.append_assoc]
        rfl
      · rw [h3, List.length_cons]
        omega
      · simp only [List.map_cons]
        exact List.Sublist.cons₂ _ h4
      · rw [List.pairwise_cons]
        refine ⟨?_, h5⟩
        intro q hq
        obtain ⟨hauto, bb, hbb, hbid, u, hu, hqt, hcb2, hnl, hmin⟩ := h6 q hq
        rw [hpays] at hnl
        have hne := notLinked_single _ _ _ hnl
        rw [hqt]
        exact hne
      · intro p hp2
        rcases List.mem_cons.mp hp2 with rfl | hp3
        · refine ⟨rfl, b, List.mem_cons_self _ _, rfl, t, htxs, rfl, hcb.1, hcb.2, ?_⟩
          intro u hu hcu hnl
          have hnl1 : AutoDetect.notLinked
              ((AutoDetect.applyMatch db b t).billPayments ++ new1) u.id = true := by
            rw [← h2]
            exact hnl
          rw [hpays] at hnl1
          have hnl2 := notLinked_append_left _ _ _ hnl1
          have hnl0 := notLinked_append_left _ _ _ hnl2
          refine htmin u (List.mem_filter.mpr ⟨hu, ?_⟩)
          unfold AutoDetect.isCandidate
          rw [hcu, hnl0]
          rfl
        · obtain ⟨hauto, bb, hbb, hbid, u, hu, hqt, hcb2, hnl, hmin⟩ := h6 p hp3
          refine ⟨hauto, bb, List.mem_cons_of_mem _ hbb, hbid, u, ?_, hqt, hcb2, ?_, ?_⟩
          · rw [htrans] at hu
            exact hu
          · rw [hpays] at hnl
            exact notLinked_append_left _ _ _ hnl
          · intro v hv hcv hnlv
            refine hmin v ?_ hcv hnlv
            rw [htrans]
            exact hv

/-- **C6**: in every run of the auto-payment detection over a state whose bill
ids are distinct, the run only appends payment rows; every appended row is
auto-detected and links a transaction that was not linked to any BillPayment
before the run; the appended rows link pairwise distinct transactions (so no
transaction is ever paired with two bills); each eligible bill receives at
most one payment (the appended rows' bill ids are distinct and belong to
eligible bills); and each appended row links a same-category, exact-amount,
in-window candidate of its bill with minimal absolute distance to the bill's
`nextDueDate` among the candidates that remain unlinked. -/
theorem auto_detection_exclusive (todayN : Int) (db : DB)
    (hnodup : (db.bills.map (fun b => b.id)).Nodup) :
    ∃ new : List BillPayment,
      (AutoDetect.processAutoDetection todayN db).1.billPayments =
        db.billPayments ++ new ∧
      (AutoDetect.processAutoDetection todayN db).2 = new.length ∧
      (∀ p ∈ new, p.isAutoDetected = true ∧
        ∃ t, t ∈ db.transactions ∧ p.transactionId = some t.id ∧
          AutoDetect.notLinked db.billPayments t.id = true) ∧
      new.Pairwise (fun p q => p.transactionId ≠ q.transactionId) ∧
      (new.map (fun p => p.billId)).Nodup ∧
      (∀ p ∈ new, ∃ b, b ∈ AutoDetect.eligible todayN db ∧ p.billId = b.id ∧
        ∃ t, t ∈ db.transactions ∧ p.transactionId = some t.id ∧
          AutoDetect.candBasic todayN b t = true ∧
          ∀ u ∈ db.transactions, AutoDetect.candBasic todayN b u = true →
            AutoDetect.notLinked
              (AutoDetect.processAutoDetection todayN db).1.billPayments u.id = true →
            |dayNumber t.date - dayNumber b.nextDueDate| ≤
              |dayNumber u.date - dayNumber b.nextDueDate|) := by
  obtain ⟨new, h1, h2, h3, h4, h5, h6⟩ :=
    autoFold_spec todayN (AutoDetect.eligible todayN db) db 0
  have hel : (AutoDetect.eligible todayN db).map (fun b => b.id) |>.Sublist
      (db.bills.map (fun b => b.id)) :=
    List.Sublist.map _ (List.filter_sublist db.bills)
  unfold AutoDetect.processAutoDetection
  refine ⟨new, h2, by rw [h3]; omega, ?_, h5, (h4.trans hel).nodup hnodup, ?_⟩
  · intro p hp
    obtain ⟨hauto, bb, hbb, hbid, u, hu, hqt, hcb2, hnl, hmin⟩ := h6 p hp
    exact ⟨hauto, u, hu, hqt, hnl⟩
  · intro p hp
    obtain ⟨hauto, bb, hbb, hbid, u, hu, hqt, hcb2, hnl, hmin⟩ := h6 p hp
    exact ⟨bb, hbb, hbid, u, hu, hqt, hcb2, hmin⟩

/-- Witness for C6 on the concrete one-bill, two-candidate state with
reference day 2024-04-12. -/
theorem auto_detection_exclusive_witness :
    ∃ new : List BillPayment,
      (AutoDetect.processAutoDetection (dayNumber ⟨2024, 3, 12⟩) dbC6).1.billPayments =
        dbC6.billPayments ++ new ∧
      (AutoDetect.processAutoDetection (dayNumber ⟨2024, 3, 12⟩) dbC6).2 = new.length ∧
      (∀ p ∈ new, p.isAutoDetected = true ∧
        ∃ t, t ∈ dbC6.transactions ∧ p.transactionId = some t.id ∧
          AutoDetect.notLinked dbC6.billPayments t.id = true) ∧
      new.Pairwise (fun p q => p.transactionId ≠ q.transactionId) ∧
      (new.map (fun p => p.billId)).Nodup ∧
      (∀ p ∈ new, ∃ b, b ∈ AutoDetect.eligible (dayNumber ⟨2024, 3, 12⟩) dbC6 ∧
        p.billId = b.id ∧
        ∃ t, t ∈ dbC6.transactions ∧ p.transactionId = some t.id ∧
          AutoDetect.candBasic (dayNumber ⟨2024, 3, 12⟩) b t = true ∧
          ∀ u ∈ dbC6.transactions,
            AutoDetect.candBasic (dayNumber ⟨2024, 3, 12⟩) b u = true →
            AutoDetect.notLinked
              (AutoDetect.processAutoDetection (dayNumber ⟨2024, 3, 12⟩)
                dbC6).1.billPayments u.id = true →
            |dayNumber t.date - dayNumber b.nextDueDate| ≤
              |dayNumber u.date - dayNumber b.nextDueDate|) :=
  auto_detection_exclusive (dayNumber ⟨2024, 3, 12⟩) dbC6 (by decide)

end FinanceTracker
